import Mathlib

/-!
Verification of the build-profile configuration loader specified for the
NodotProject/shadertoy-exporter repository.  The repository itself ships a
single declarative configuration file (`src/custom_build.py`); the loader
(`ProfileLoader` with `load` and `to_invocation_args`) is described by the
specification but has no implementation in the repository, so its behaviour
is modelled here from the specification text.  The concrete configuration
file is embedded verbatim as `customBuildLines`.
-/

namespace ProfileLoader

/-- Modelled from the spec: the error taxonomy of §7 — `ParseError`
(malformed line), `UnknownOptionError` (key not registered),
`TypeMismatchError` (value does not coerce to the declared type). -/
inductive LoadError where
  | ParseError
  | UnknownOptionError
  | TypeMismatchError
deriving DecidableEq, Repr

/-- Modelled from the spec: an option's declared type — boolean, free
string, or enumerated string with a fixed member list (§3, §4.1). -/
inductive OptionType where
  | boolT
  | strT
  | enumT (members : List String)
deriving DecidableEq, Repr

/-- Modelled from the spec: an option value — one of boolean, string or
enumerated string; enum members are represented as strings (§3). -/
inductive Value where
  | boolV (b : Bool)
  | strV (s : String)
deriving DecidableEq, Repr

/-- Modelled from the spec: one entry of the option registry — the option
name, its one-to-one invoker flag name, its declared type and its
`declared_default` (§3, §6, glossary). -/
structure OptionSpec where
  name : String
  flag : String
  type : OptionType
  declared_default : Value
deriving DecidableEq, Repr

/-- Modelled from the spec: the option registry, the fixed list of
recognized option names, types and defaults (glossary). -/
abbrev Registry := List OptionSpec

/-- Modelled from the spec: a Profile is a mapping from option names to
values, here an association list built in registry order (§3). -/
abbrev Profile := List (String × Value)

/-- Characters allowed in an identifier key (letters, digits, underscore). -/
def isIdentChar (c : Char) : Bool :=
  c.isAlpha || c.isDigit || c = '_'

/-- Whitespace characters that are trimmed from line ends. -/
def isWs (c : Char) : Bool :=
  c = ' ' || c = '\t' || c = '\r'

/-- Trim whitespace from both ends of a character list. -/
def trimChars (cs : List Char) : List Char :=
  ((cs.dropWhile isWs).reverse.dropWhile isWs).reverse

/-- Modelled from the spec: the content of a line once the `#`-to-end-of-line
comment is removed and surrounding whitespace is trimmed (§4.1, §6). -/
def strippedContent (l : String) : List Char :=
  trimChars (l.data.takeWhile (fun c => c != '#'))

/-- A line is ignorable when, after comment stripping and trimming,
nothing remains: blank lines and comment-only lines (§4.1). -/
def ignorable (l : String) : Bool :=
  (strippedContent l).isEmpty

/-- Modelled from the spec: parse the value part of an assignment —
either a quoted string `"value"` or the bare booleans `yes`/`no` (§6). -/
def parseValueChars (vs : List Char) : Except LoadError String :=
  match vs with
  | '"' :: rest =>
    match rest.dropWhile (fun c => c != '"') with
    | ['"'] => .ok (String.mk (rest.takeWhile (fun c => c != '"')))
    | _ => .error .ParseError
  | _ =>
    if vs = ['y', 'e', 's'] then .ok "yes"
    else if vs = ['n', 'o'] then .ok "no"
    else .error .ParseError

/-- Modelled from the spec: parse one line — `#` starts a comment, blank
remnants are ignored, otherwise the line must be `identifier="value"` or
`identifier=yes|no`; anything else is a `ParseError` (§4.1, §6). -/
def parseLine (l : String) : Except LoadError (Option (String × String)) :=
  let cs := strippedContent l
  if cs.isEmpty then .ok none
  else
    let key := cs.takeWhile isIdentChar
    let rest := cs.dropWhile isIdentChar
    if key.isEmpty then .error .ParseError
    else
      match rest with
      | '=' :: vs =>
        match parseValueChars vs with
        | .ok v => .ok (some (String.mk key, v))
        | .error e => .error e
      | _ => .error .ParseError

/-- Modelled from the spec: parse all lines of the source into the list of
raw key/value assignments, failing on the first malformed line (§4.1). -/
def parseLines : List String → Except LoadError (List (String × String))
  | [] => .ok []
  | l :: rest =>
    match parseLine l, parseLines rest with
    | .error e, _ => .error e
    | .ok _, .error e => .error e
    | .ok none, .ok ps => .ok ps
    | .ok (some kv), .ok ps => .ok (kv :: ps)

/-- Split a character list at every occurrence of a separator character. -/
def splitListOn (sep : Char) : List Char → List (List Char)
  | [] => [[]]
  | x :: xs =>
    match splitListOn sep xs, decide (x = sep) with
    | r, true => [] :: r
    | [], false => [[x]]
    | l :: ls, false => (x :: l) :: ls

/-- Split a source text into its lines. -/
def splitLines (s : String) : List String :=
  (splitListOn '\n' s.data).map String.mk

/-- Look up the registry entry for an option name (§3). -/
def findSpec : Registry → String → Option OptionSpec
  | [], _ => none
  | s :: rest, k => if s.name = k then some s else findSpec rest k

/-- Look up the registry entry carrying a given invoker flag (§6). -/
def findSpecByFlag : Registry → String → Option OptionSpec
  | [], _ => none
  | s :: rest, f => if s.flag = f then some s else findSpecByFlag rest f

/-- Modelled from the spec: check that every assignment key is a recognized
option name; an unregistered key is a hard `UnknownOptionError` (§3, §4.1). -/
def checkKeysKnown (reg : Registry) : List (String × String) → Except LoadError Unit
  | [] => .ok ()
  | (k, _) :: rest =>
    match findSpec reg k with
    | none => .error .UnknownOptionError
    | some _ => checkKeysKnown reg rest

/-- Modelled from the spec: coerce a raw value string to the option's
declared type — `"yes"`/`"no"` map to boolean, strings pass through, enum
values must be members; failure is a `TypeMismatchError` (§4.1). -/
def coerceValue (t : OptionType) (raw : String) : Except LoadError Value :=
  match t with
  | .boolT =>
    if raw = "yes" then .ok (.boolV true)
    else if raw = "no" then .ok (.boolV false)
    else .error .TypeMismatchError
  | .strT => .ok (.strV raw)
  | .enumT ms =>
    if ms.contains raw then .ok (.strV raw) else .error .TypeMismatchError

/-- Modelled from the spec: coerce every assignment to its option's
declared type, failing on the first mismatch (§4.1). -/
def coercePairs (reg : Registry) : List (String × String) → Except LoadError (List (String × Value))
  | [] => .ok []
  | (k, raw) :: rest =>
    match findSpec reg k with
    | none => .error .UnknownOptionError
    | some spec =>
      match coerceValue spec.type raw, coercePairs reg rest with
      | .error e, _ => .error e
      | .ok _, .error e => .error e
      | .ok v, .ok vs => .ok ((k, v) :: vs)

/-- The value of the last assignment to a key, if any (later assignments
shadow earlier ones). -/
def lookupLast (ps : List (String × Value)) (k : String) : Option Value :=
  match ps with
  | [] => none
  | (k2, v) :: rest =>
    match lookupLast rest k with
    | some v2 => some v2
    | none => if k2 = k then some v else none

/-- Modelled from the spec: build the fully populated Profile in registry
order — options absent from the source are filled from
`declared_default` (§4.1). -/
def buildProfile (reg : Registry) (vals : List (String × Value)) : Profile :=
  reg.map (fun spec => (spec.name, (lookupLast vals spec.name).getD spec.declared_default))

/-- Modelled from the spec: `load` over a list of source lines — parse,
check all keys against the registry, type-coerce all values, then build the
fully populated Profile; any error terminates loading (§4.1, §7). -/
def loadLines (reg : Registry) (ls : List String) : Except LoadError Profile :=
  match parseLines ls with
  | .error e => .error e
  | .ok pairs =>
    match checkKeysKnown reg pairs with
    | .error e => .error e
    | .ok _ =>
      match coercePairs reg pairs with
      | .error e => .error e
      | .ok vals => .ok (buildProfile reg vals)

/-- Modelled from the spec: `load(source) -> Profile`, reading the textual
source line by line (§4.1). -/
def load (reg : Registry) (source : String) : Except LoadError Profile :=
  loadLines reg (splitLines source)

/-- Render a value back to its textual form (booleans as `yes`/`no`). -/
def renderValue : Value → String
  | .boolV true => "yes"
  | .boolV false => "no"
  | .strV s => s

/-- The value a profile records for a registry entry, defaulting to the
entry's `declared_default`. -/
def profileFind (p : Profile) (k : String) : Option Value :=
  match p with
  | [] => none
  | (k2, v) :: rest => if k2 = k then some v else profileFind rest k

/-- Modelled from the spec: `to_invocation_args(profile)` — the ordered
sequence of `--flag=value` strings in option-registry order, the flag name
being the registry's one-to-one mapping of the option name (§4.1, §6). -/
def toInvocationArgs (reg : Registry) (p : Profile) : List String :=
  reg.map (fun spec =>
    "--" ++ spec.flag ++ "=" ++
      renderValue ((profileFind p spec.name).getD spec.declared_default))

/-- Split one `--flag=value` invoker argument into flag and value. -/
def splitFlagArg (a : String) : Except LoadError (String × String) :=
  match a.data with
  | '-' :: '-' :: rest =>
    match rest.dropWhile (fun c => c != '=') with
    | '=' :: vs => .ok (String.mk (rest.takeWhile (fun c => c != '=')), String.mk vs)
    | _ => .error .ParseError
  | _ => .error .ParseError

/-- Modelled from the spec: re-ingest a sequence of `--flag=value` invoker
arguments back into a Profile, mapping flags to option names through the
registry and re-coercing each value (§6, §8 round-trip property). -/
def parseInvocationArgs (reg : Registry) : List String → Except LoadError Profile
  | [] => .ok []
  | a :: rest =>
    match splitFlagArg a with
    | .error e => .error e
    | .ok (f, raw) =>
      match findSpecByFlag reg f with
      | none => .error .UnknownOptionError
      | some spec =>
        match coerceValue spec.type raw, parseInvocationArgs reg rest with
        | .error e, _ => .error e
        | .ok _, .error e => .error e
        | .ok v, .ok ps => .ok ((spec.name, v) :: ps)

/-- Load followed by rendering: the full pipeline from source text to the
invoker's argument sequence. -/
def pipeline (reg : Registry) (source : String) : Except LoadError (List String) :=
  match load reg source with
  | .error e => .error e
  | .ok p => .ok (toInvocationArgs reg p)

/-- A value conforms to a declared type. -/
def typeCorrect (t : OptionType) (v : Value) : Bool :=
  match t, v with
  | .boolT, .boolV _ => true
  | .strT, .strV _ => true
  | .enumT ms, .strV s => ms.contains s
  | _, _ => false

/-- Modelled from the spec: well-formedness of an option registry — option
names unique, flag names one-to-one, flags free of `=` so that rendered
arguments split unambiguously, defaults conforming to their declared
types (§3, §6, §9). -/
def WellFormed (reg : Registry) : Prop :=
  (reg.map OptionSpec.name).Nodup ∧
  (reg.map OptionSpec.flag).Nodup ∧
  (∀ spec ∈ reg, '=' ∉ spec.flag.data) ∧
  (∀ spec ∈ reg, typeCorrect spec.type spec.declared_default = true)

/-- Modelled from the spec: the concrete option registry implied by the
repository's configuration file and the specification — the 22 option
names appearing in `src/custom_build.py`, with boolean type for the
`yes`/`no` options, string type for `target` and `optimize`, the
`enum{off,thin,full}` type the specification gives for `lto` (§8), a
one-to-one flag mapping, and explicit `declared_default` values as §9
requires (the spec leaves the default values open, so representative
values are chosen here). -/
def godotRegistry : Registry := [
  ⟨"target", "target", .strT, .strV "editor"⟩,
  ⟨"debug_symbols", "debug_symbols", .boolT, .boolV false⟩,
  ⟨"optimize", "optimize", .strT, .strV "speed_trace"⟩,
  ⟨"lto", "lto", .enumT ["off", "thin", "full"], .strV "off"⟩,
  ⟨"disable_3d", "disable_3d", .boolT, .boolV false⟩,
  ⟨"disable_advanced_gui", "disable_advanced_gui", .boolT, .boolV false⟩,
  ⟨"deprecated", "deprecated", .boolT, .boolV true⟩,
  ⟨"vulkan", "vulkan", .boolT, .boolV true⟩,
  ⟨"use_volk", "use_volk", .boolT, .boolV true⟩,
  ⟨"openxr", "openxr", .boolT, .boolV true⟩,
  ⟨"minizip", "minizip", .boolT, .boolV true⟩,
  ⟨"graphite", "graphite", .boolT, .boolV true⟩,
  ⟨"disable_navigation_2d", "disable_navigation_2d", .boolT, .boolV false⟩,
  ⟨"disable_navigation_3d", "disable_navigation_3d", .boolT, .boolV false⟩,
  ⟨"disable_xr", "disable_xr", .boolT, .boolV false⟩,
  ⟨"modules_enabled_by_default", "modules_enabled_by_default", .boolT, .boolV true⟩,
  ⟨"module_gdscript_enabled", "module_gdscript_enabled", .boolT, .boolV true⟩,
  ⟨"module_text_server_fb_enabled", "module_text_server_fb_enabled", .boolT, .boolV false⟩,
  ⟨"module_freetype_enabled", "module_freetype_enabled", .boolT, .boolV true⟩,
  ⟨"module_svg_enabled", "module_svg_enabled", .boolT, .boolV true⟩,
  ⟨"module_webp_enabled", "module_webp_enabled", .boolT, .boolV true⟩,
  ⟨"module_godot_physics_2d_enabled", "module_godot_physics_2d_enabled", .boolT, .boolV true⟩]

/-- The Profile consisting entirely of registry defaults. -/
def godotDefaults : Profile :=
  godotRegistry.map (fun spec => (spec.name, spec.declared_default))

/-- The lines of `src/custom_build.py`, transcribed verbatim. -/
def customBuildLines : List String := [
  "# custom_build.py - Optimized build profile for 2D games",
  "target=\"template_release\"",
  "debug_symbols=\"no\"",
  "optimize=\"size_extra\"  # Godot 4.5+ only, otherwise use \"size\"",
  "lto=\"full\"             # Full link-time optimization (slower build, smaller size)",
  "",
  "# Disable 3D if you\x27re making a 2D game",
  "disable_3d=\"yes\"",
  "disable_advanced_gui=\"yes\"",
  "",
  "# Disable unnecessary features",
  "deprecated=\"no\"",
  "vulkan=\"no\"       # Using Compatibility renderer (OpenGL)",
  "use_volk=\"no\"",
  "openxr=\"no\"       # No VR/AR",
  "minizip=\"no\"      # No ZIP archive support",
  "graphite=\"no\"     # No SIL Graphite fonts",
  "",
  "# Disable navigation if not needed",
  "disable_navigation_2d=\"yes\"",
  "disable_navigation_3d=\"yes\"",
  "disable_xr=\"yes\"",
  "",
  "# Module configuration - disable all, enable only what you need",
  "modules_enabled_by_default=\"no\"",
  "module_gdscript_enabled=\"yes\"",
  "module_text_server_fb_enabled=\"yes\"  # Fallback text server (no RTL support)",
  "module_freetype_enabled=\"yes\"",
  "module_svg_enabled=\"yes\"",
  "module_webp_enabled=\"no\"",
  "module_godot_physics_2d_enabled=\"no\"  # Enable if you use 2D physics"]

/-- The full text of `src/custom_build.py` (its lines joined by newlines;
the file has no trailing newline). -/
def customBuildSource : String :=
  String.intercalate "\n" customBuildLines

/-- The raw key/value assignments of `src/custom_build.py` in file order:
22 assignments. -/
def customBuildPairs : List (String × String) := [
  ("target", "template_release"),
  ("debug_symbols", "no"),
  ("optimize", "size_extra"),
  ("lto", "full"),
  ("disable_3d", "yes"),
  ("disable_advanced_gui", "yes"),
  ("deprecated", "no"),
  ("vulkan", "no"),
  ("use_volk", "no"),
  ("openxr", "no"),
  ("minizip", "no"),
  ("graphite", "no"),
  ("disable_navigation_2d", "yes"),
  ("disable_navigation_3d", "yes"),
  ("disable_xr", "yes"),
  ("modules_enabled_by_default", "no"),
  ("module_gdscript_enabled", "yes"),
  ("module_text_server_fb_enabled", "yes"),
  ("module_freetype_enabled", "yes"),
  ("module_svg_enabled", "yes"),
  ("module_webp_enabled", "no"),
  ("module_godot_physics_2d_enabled", "no")]

/-- A line of the stripped form `identifier="value"`: nonempty identifier
key, `=`, and a double-quoted value closed exactly at line end. -/
def isQuotedAssignment (l : String) : Bool :=
  let cs := strippedContent l
  let key := cs.takeWhile isIdentChar
  let rest := cs.dropWhile isIdentChar
  !key.isEmpty &&
    match rest with
    | '=' :: '"' :: vs => vs.dropWhile (fun c => c != '"') == ['"']
    | _ => false

set_option maxRecDepth 1000000 in
/-- Sanity: splitting the full source text recovers exactly the
transcribed lines. -/
theorem customBuildSource_lines : splitLines customBuildSource = customBuildLines := by
  decide

/-- An ignorable line parses to no assignment and raises nothing. -/
theorem parseLine_of_ignorable (l : String) (h : ignorable l = true) :
    parseLine l = .ok none := by
  unfold parseLine
  unfold ignorable at h
  simp [h]

/-- Inserting an ignorable line anywhere leaves the parsed assignment list
unchanged. -/
theorem parseLines_insert_ignorable (pre post : List String) (l : String)
    (h : ignorable l = true) :
    parseLines (pre ++ l :: post) = parseLines (pre ++ post) := by
  induction pre with
  | nil =>
    simp only [List.nil_append, parseLines, parseLine_of_ignorable l h]
    cases parseLines post <;> rfl
  | cons q pre ih =>
    simp only [List.cons_append, parseLines]
    have ih2 : parseLines (pre.append (l :: post)) = parseLines (pre.append post) := ih
    rw [ih2]

/-- Inversion of a successful `loadLines`: all three phases succeeded and
the result is the profile built from the coerced assignments. -/
theorem loadLines_ok_inv (reg : Registry) (ls : List String) (p : Profile)
    (h : loadLines reg ls = .ok p) :
    ∃ pairs vals, parseLines ls = .ok pairs ∧
      checkKeysKnown reg pairs = .ok () ∧
      coercePairs reg pairs = .ok vals ∧
      p = buildProfile reg vals := by
  unfold loadLines at h
  split at h
  · cases h
  · rename_i pairs hp
    split at h
    · cases h
    · rename_i u hk
      split at h
      · cases h
      · rename_i vals hc
        cases h
        exact ⟨pairs, vals, hp, by cases u; exact hk, hc, rfl⟩

/-- A source with an assignment to an unregistered key fails the
key-recognition phase with `UnknownOptionError`. -/
theorem checkKeysKnown_unknown (reg : Registry)
    (pairs : List (String × String)) (k v : String)
    (hmem : (k, v) ∈ pairs) (hn : findSpec reg k = none) :
    checkKeysKnown reg pairs = .error .UnknownOptionError := by
  induction pairs with
  | nil => cases hmem
  | cons kv rest ih =>
    obtain ⟨k2, v2⟩ := kv
    rcases List.mem_cons.mp hmem with heq | htail
    · injection heq with h1 h2
      subst h1
      unfold checkKeysKnown
      rw [hn]
    · unfold checkKeysKnown
      cases hf : findSpec reg k2 with
      | none => rfl
      | some s => exact ih htail

/-- Every registered spec is found under its own name (possibly shadowed by
an earlier entry of the same name). -/
theorem findSpec_isSome_of_mem (reg : Registry) (s : OptionSpec)
    (hs : s ∈ reg) : (findSpec reg s.name).isSome = true := by
  induction reg with
  | nil => cases hs
  | cons t rest ih =>
    unfold findSpec
    by_cases h : t.name = s.name
    · simp [h]
    · rcases List.mem_cons.mp hs with rfl | htail
      · exact absurd rfl h
      · simp [h, ih htail]

/-- Coercion preserves the assignment keys in order. -/
theorem coercePairs_keys (reg : Registry) (ps : List (String × String))
    (vals : List (String × Value)) (h : coercePairs reg ps = .ok vals) :
    vals.map Prod.fst = ps.map Prod.fst := by
  induction ps generalizing vals with
  | nil =>
    unfold coercePairs at h
    cases h
    rfl
  | cons kv rest ih =>
    obtain ⟨k, raw⟩ := kv
    unfold coercePairs at h
    split at h
    · cases h
    · split at h
      · cases h
      · cases h
      · rename_i v vs hv hvs
        cases h
        simp [ih vs hvs]

/-- A key assigned by none of the pairs has no last assignment. -/
theorem lookupLast_eq_none (ps : List (String × Value)) (k : String)
    (h : ∀ kv ∈ ps, kv.1 ≠ k) : lookupLast ps k = none := by
  induction ps with
  | nil => rfl
  | cons kv rest ih =>
    obtain ⟨k2, v⟩ := kv
    unfold lookupLast
    rw [ih (fun kv hkv => h kv (List.mem_cons_of_mem _ hkv))]
    simp [h (k2, v) (List.mem_cons_self ..)]

/-- A last assignment comes from a pair of the list. -/
theorem lookupLast_mem (ps : List (String × Value)) (k : String) (v : Value)
    (h : lookupLast ps k = some v) : (k, v) ∈ ps := by
  induction ps with
  | nil => cases h
  | cons kv rest ih =>
    obtain ⟨k2, v2⟩ := kv
    unfold lookupLast at h
    cases hr : lookupLast rest k with
    | some v3 =>
      rw [hr] at h
      injection h with h2
      subst h2
      exact List.mem_cons_of_mem _ (ih hr)
    | none =>
      rw [hr] at h
      by_cases hk : k2 = k
      · rw [if_pos hk] at h
        injection h with h2
        subst hk
        subst h2
        exact List.mem_cons_self ..
      · rw [if_neg hk] at h
        cases h

/-- `coerceValue` only ever fails with `TypeMismatchError`. -/
theorem coerceValue_error_eq (t : OptionType) (raw : String) (e : LoadError)
    (h : coerceValue t raw = .error e) : e = .TypeMismatchError := by
  cases t with
  | boolT =>
    simp only [coerceValue] at h
    split at h
    · cases h
    · split at h
      · cases h
      · injection h with h3; exact h3.symm
  | strT => simp only [coerceValue] at h; cases h
  | enumT ms =>
    simp only [coerceValue] at h
    split at h
    · cases h
    · injection h with h3; exact h3.symm

/-- If every key is recognized and some assignment's value fails coercion,
the coercion phase fails with `TypeMismatchError`. -/
theorem coercePairs_mismatch (reg : Registry) (ps : List (String × String))
    (k raw : String) (spec : OptionSpec)
    (hkeys : checkKeysKnown reg ps = .ok ())
    (hmem : (k, raw) ∈ ps) (hf : findSpec reg k = some spec)
    (hbad : coerceValue spec.type raw = .error .TypeMismatchError) :
    coercePairs reg ps = .error .TypeMismatchError := by
  induction ps with
  | nil => cases hmem
  | cons kv rest ih =>
    obtain ⟨k2, raw2⟩ := kv
    cases hf2 : findSpec reg k2 with
    | none =>
      unfold checkKeysKnown at hkeys
      rw [hf2] at hkeys
      cases hkeys
    | some spec2 =>
      have hkeys2 : checkKeysKnown reg rest = .ok () := by
        unfold checkKeysKnown at hkeys
        rw [hf2] at hkeys
        exact hkeys
      rcases List.mem_cons.mp hmem with heq | htail
      · injection heq with h1 h2
        subst h1; subst h2
        rw [hf2] at hf
        injection hf with h3
        subst h3
        simp only [coercePairs, hf2, hbad]
      · have hrest := ih hkeys2 htail
        cases hc : coerceValue spec2.type raw2 with
        | error e =>
          have he := coerceValue_error_eq _ _ _ hc
          subst he
          simp only [coercePairs, hf2, hc]
        | ok v =>
          simp only [coercePairs, hf2, hc, hrest]

/-- With unique option names, a registered spec is found under its own
name exactly. -/
theorem findSpec_self (reg : Registry) (s : OptionSpec)
    (hnd : (reg.map OptionSpec.name).Nodup) (hs : s ∈ reg) :
    findSpec reg s.name = some s := by
  induction reg with
  | nil => cases hs
  | cons t rest ih =>
    rw [List.map_cons, List.nodup_cons] at hnd
    unfold findSpec
    rcases List.mem_cons.mp hs with rfl | htail
    · rw [if_pos rfl]
    · by_cases he : t.name = s.name
      · exact absurd (he ▸ List.mem_map_of_mem OptionSpec.name htail) hnd.1
      · rw [if_neg he]
        exact ih hnd.2 htail

/-- With one-to-one flags, a registered spec is found under its own flag
exactly. -/
theorem findSpecByFlag_self (reg : Registry) (s : OptionSpec)
    (hnd : (reg.map OptionSpec.flag).Nodup) (hs : s ∈ reg) :
    findSpecByFlag reg s.flag = some s := by
  induction reg with
  | nil => cases hs
  | cons t rest ih =>
    rw [List.map_cons, List.nodup_cons] at hnd
    unfold findSpecByFlag
    rcases List.mem_cons.mp hs with rfl | htail
    · rw [if_pos rfl]
    · by_cases he : t.flag = s.flag
      · exact absurd (he ▸ List.mem_map_of_mem OptionSpec.flag htail) hnd.1
      · rw [if_neg he]
        exact ih hnd.2 htail

/-- Looking a registered name up in a profile shaped as a map over the
registry returns that entry's value. -/
theorem profileFind_map (reg : Registry) (f : OptionSpec → Value)
    (s : OptionSpec) (hnd : (reg.map OptionSpec.name).Nodup) (hs : s ∈ reg) :
    profileFind (reg.map (fun t => (t.name, f t))) s.name = some (f s) := by
  induction reg with
  | nil => cases hs
  | cons t rest ih =>
    rw [List.map_cons, List.nodup_cons] at hnd
    rw [List.map_cons]
    unfold profileFind
    rcases List.mem_cons.mp hs with rfl | htail
    · rw [if_pos rfl]
    · by_cases he : t.name = s.name
      · exact absurd (he ▸ List.mem_map_of_mem OptionSpec.name htail) hnd.1
      · rw [if_neg he]
        exact ih hnd.2 htail

/-- Splitting a character list at the first occurrence of a separator that
is absent from the prefix. -/
theorem takeWhile_dropWhile_sep (sep : Char) (cs vs : List Char)
    (h : sep ∉ cs) :
    (cs ++ sep :: vs).takeWhile (fun c => c != sep) = cs ∧
    (cs ++ sep :: vs).dropWhile (fun c => c != sep) = sep :: vs := by
  induction cs with
  | nil => simp [List.takeWhile, List.dropWhile]
  | cons c cs ih =>
    have hc : c ≠ sep := fun he => h (he ▸ List.mem_cons_self ..)
    have hcs : sep ∉ cs := fun hm => h (List.mem_cons_of_mem _ hm)
    obtain ⟨iht, ihd⟩ := ih hcs
    constructor
    · rw [List.cons_append, List.takeWhile_cons]
      simp only [bne_iff_ne, ne_eq, hc, not_false_eq_true, if_true, iht]
    · rw [List.cons_append, List.dropWhile_cons]
      simp only [bne_iff_ne, ne_eq, hc, not_false_eq_true, if_true, ihd]

/-- A rendered `--flag=value` argument splits back into its flag and
value when the flag contains no `=`. -/
theorem splitFlagArg_render (flag v : String) (h : '=' ∉ flag.data) :
    splitFlagArg ("--" ++ flag ++ "=" ++ v) = .ok (flag, v) := by
  have hdata : ("--" ++ flag ++ "=" ++ v).data =
      '-' :: '-' :: (flag.data ++ '=' :: v.data) := by
    simp [String.data_append]
  obtain ⟨ht, hd⟩ := takeWhile_dropWhile_sep '=' flag.data v.data h
  unfold splitFlagArg
  rw [hdata]
  simp only [ht, hd]

/-- Coercing a rendered value of the correct type recovers the value. -/
theorem coerce_render_id (t : OptionType) (v : Value)
    (h : typeCorrect t v = true) : coerceValue t (renderValue v) = .ok v := by
  cases t with
  | boolT =>
    cases v with
    | boolV b => cases b <;> rfl
    | strV s => cases h
  | strT =>
    cases v with
    | boolV b => cases h
    | strV s => rfl
  | enumT ms =>
    cases v with
    | boolV b => cases h
    | strV s =>
      simp only [typeCorrect] at h
      simp only [renderValue, coerceValue, h, if_true]

/-- A successfully coerced value conforms to the option's declared type. -/
theorem coerceValue_typeCorrect (t : OptionType) (raw : String) (v : Value)
    (h : coerceValue t raw = .ok v) : typeCorrect t v = true := by
  cases t with
  | boolT =>
    simp only [coerceValue] at h
    split at h
    · injection h with h2; subst h2; rfl
    · split at h
      · injection h with h2; subst h2; rfl
      · cases h
  | strT =>
    simp only [coerceValue] at h
    injection h with h2
    subst h2
    rfl
  | enumT ms =>
    simp only [coerceValue] at h
    split at h
    · injection h with h2
      subst h2
      rename_i hc
      simpa [typeCorrect] using hc
    · cases h

/-- Re-parsing the rendered arguments of a registry-shaped profile
recovers the profile, entry by entry. -/
theorem parseInvocationArgs_render (reg : Registry) (sub : Registry)
    (f : OptionSpec → Value)
    (hflag : ∀ s ∈ sub, findSpecByFlag reg s.flag = some s)
    (hne : ∀ s ∈ sub, '=' ∉ s.flag.data)
    (htc : ∀ s ∈ sub, typeCorrect s.type (f s) = true) :
    parseInvocationArgs reg
        (sub.map (fun s => "--" ++ s.flag ++ "=" ++ renderValue (f s))) =
      .ok (sub.map (fun s => (s.name, f s))) := by
  induction sub with
  | nil => rfl
  | cons s rest ih =>
    have h1 := hflag s (List.mem_cons_self ..)
    have h2 := hne s (List.mem_cons_self ..)
    have h3 := htc s (List.mem_cons_self ..)
    have ihr := ih (fun t ht => hflag t (List.mem_cons_of_mem _ ht))
      (fun t ht => hne t (List.mem_cons_of_mem _ ht))
      (fun t ht => htc t (List.mem_cons_of_mem _ ht))
    rw [List.map_cons, List.map_cons]
    simp only [parseInvocationArgs, splitFlagArg_render _ _ h2, h1,
      coerce_render_id _ _ h3, ihr]

/-- C1: an assignment whose key is not in the recognized option registry
makes `load` fail with `UnknownOptionError` — a hard error, never a silent
ignore — and consequently every key of a successfully loaded Profile is a
recognized option name. -/
theorem unknown_key_is_hard_error :
    (∀ (reg : Registry) (src : String) (pairs : List (String × String)) (k v : String),
      parseLines (splitLines src) = .ok pairs → (k, v) ∈ pairs →
      findSpec reg k = none → load reg src = .error .UnknownOptionError) ∧
    (∀ (reg : Registry) (src : String) (p : Profile),
      load reg src = .ok p → ∀ kv ∈ p, (findSpec reg kv.1).isSome = true) := by
  constructor
  · intro reg src pairs k v hp hmem hn
    unfold load
    simp only [loadLines, hp, checkKeysKnown_unknown reg pairs k v hmem hn]
  · intro reg src p h kv hkv
    obtain ⟨pairs, vals, hp, hk, hc, rfl⟩ := loadLines_ok_inv reg (splitLines src) p h
    unfold buildProfile at hkv
    obtain ⟨s, hs, rfl⟩ := List.mem_map.mp hkv
    exact findSpec_isSome_of_mem reg s hs

/-- Witness for C1 at a concrete input: `foo="bar"` with the concrete
registry fails with `UnknownOptionError`. -/
theorem unknown_key_is_hard_error_witness :
    load godotRegistry "foo=\"bar\"" = .error .UnknownOptionError :=
  unknown_key_is_hard_error.1 godotRegistry "foo=\"bar\"" [("foo", "bar")] "foo" "bar"
    rfl (List.mem_singleton.mpr rfl) rfl

/-- C2: when `load` fails with any of the three errors, no Profile value is
produced alongside or instead of the error: the result cannot also be a
success. -/
theorem load_error_no_profile (reg : Registry) (src : String) (e : LoadError)
    (h : load reg src = .error e) : ∀ p : Profile, load reg src ≠ .ok p := by
  intro p hp
  rw [h] at hp
  cases hp

/-- Witness for C2 at a concrete input: the malformed source `lto=` fails
and yields no Profile. -/
theorem load_error_no_profile_witness :
    load godotRegistry "lto=" ≠ .ok godotDefaults :=
  load_error_no_profile godotRegistry "lto=" .ParseError rfl godotDefaults

/-- C3: `load` followed by `to_invocation_args` is deterministic — two
calls on identical source text (with the same registry) produce identical
outcomes. -/
theorem pipeline_deterministic (reg : Registry) (src1 src2 : String)
    (h : src1 = src2) : pipeline reg src1 = pipeline reg src2 := by
  rw [h]

/-- Witness for C3 at a concrete input: the pipeline on the repository's
own configuration file agrees with itself. -/
theorem pipeline_deterministic_witness :
    pipeline godotRegistry customBuildSource = pipeline godotRegistry customBuildSource :=
  pipeline_deterministic godotRegistry customBuildSource customBuildSource rfl

/-- C4: a loaded Profile has an entry for every registry option in
registry order; options absent from the source take `declared_default`;
the empty source yields the all-defaults Profile. -/
theorem profile_fully_populated :
    (∀ (reg : Registry) (src : String) (pairs : List (String × String)) (p : Profile),
      parseLines (splitLines src) = .ok pairs → load reg src = .ok p →
      p.map Prod.fst = reg.map OptionSpec.name ∧
      ∀ spec ∈ reg, (∀ kv ∈ pairs, kv.1 ≠ spec.name) →
        (spec.name, spec.declared_default) ∈ p) ∧
    (∀ reg : Registry, load reg "" =
      .ok (reg.map (fun spec => (spec.name, spec.declared_default)))) := by
  constructor
  · intro reg src pairs p hp h
    obtain ⟨pairs2, vals, hp2, hk, hc, rfl⟩ := loadLines_ok_inv reg (splitLines src) p h
    rw [hp] at hp2
    injection hp2 with hpe
    subst hpe
    constructor
    · unfold buildProfile
      rw [List.map_map]
      rfl
    · intro spec hspec habs
      have hkeys : vals.map Prod.fst = pairs.map Prod.fst :=
        coercePairs_keys reg pairs vals hc
      have hnone : lookupLast vals spec.name = none := by
        apply lookupLast_eq_none
        intro kv hkv heq
        have hmm : kv.1 ∈ pairs.map Prod.fst := by
          rw [← hkeys]
          exact List.mem_map_of_mem Prod.fst hkv
        obtain ⟨kv2, hkv2, he2⟩ := List.mem_map.mp hmm
        exact habs kv2 hkv2 (by rw [he2, heq])
      unfold buildProfile
      have hval : (spec.name, spec.declared_default) =
          (fun s => (s.name, (lookupLast vals s.name).getD s.declared_default)) spec := by
        show (spec.name, spec.declared_default) =
          (spec.name, (lookupLast vals spec.name).getD spec.declared_default)
        rw [hnone]
        rfl
      rw [hval]
      exact List.mem_map_of_mem _ hspec
  · intro reg
    show loadLines reg (splitLines "") = _
    rw [show splitLines "" = [""] from rfl]
    simp only [loadLines, show parseLines [""] = .ok [] from rfl,
      checkKeysKnown, coercePairs, buildProfile, lookupLast, Option.getD]

/-- Witness for C4 at a concrete input: loading just `lto="full"` fills the
absent `target` option with its registry default. -/
theorem profile_fully_populated_witness :
    ("target", Value.strV "editor") ∈
      buildProfile godotRegistry [("lto", Value.strV "full")] :=
  (profile_fully_populated.1 godotRegistry "lto=\"full\"" [("lto", "full")]
      (buildProfile godotRegistry [("lto", Value.strV "full")]) rfl rfl).2
    ⟨"target", "target", .strT, .strV "editor"⟩ (by decide) (by decide)

/-- C5: values are type-checked against the declared type — `"yes"`/`"no"`
map to booleans, strings pass through, `coerceValue` never fails with
anything but `TypeMismatchError`, a failing coercion makes `load` fail
with `TypeMismatchError`; concretely `lto="full"` is accepted under
enum`{off,thin,full}` and `lto="extreme"` is rejected. -/
theorem type_checking_behaviour :
    (coerceValue .boolT "yes" = .ok (.boolV true) ∧
     coerceValue .boolT "no" = .ok (.boolV false)) ∧
    (∀ s : String, coerceValue .strT s = .ok (.strV s)) ∧
    (∀ (t : OptionType) (raw : String) (e : LoadError),
      coerceValue t raw = .error e → e = .TypeMismatchError) ∧
    (∀ (reg : Registry) (src : String) (pairs : List (String × String))
        (k raw : String) (spec : OptionSpec),
      parseLines (splitLines src) = .ok pairs →
      checkKeysKnown reg pairs = .ok () → (k, raw) ∈ pairs →
      findSpec reg k = some spec →
      coerceValue spec.type raw = .error .TypeMismatchError →
      load reg src = .error .TypeMismatchError) ∧
    (∃ p, load godotRegistry "lto=\"full\"" = .ok p) ∧
    load godotRegistry "lto=\"extreme\"" = .error .TypeMismatchError := by
  refine ⟨⟨rfl, rfl⟩, fun s => rfl, coerceValue_error_eq, ?_, ⟨_, rfl⟩, rfl⟩
  intro reg src pairs k raw spec hp hk hmem hf hbad
  unfold load
  simp only [loadLines, hp, hk,
    coercePairs_mismatch reg pairs k raw spec hk hmem hf hbad]

/-- Witness for C5 at a concrete input: `lto="extreme"` fails with
`TypeMismatchError` through the general coercion-failure result. -/
theorem type_checking_behaviour_witness :
    load godotRegistry "lto=\"extreme\"" = .error .TypeMismatchError :=
  type_checking_behaviour.2.2.2.1 godotRegistry "lto=\"extreme\"" [("lto", "extreme")]
    "lto" "extreme" ⟨"lto", "lto", .enumT ["off", "thin", "full"], .strV "off"⟩
    rfl rfl (List.mem_singleton.mpr rfl) rfl rfl

/-- C6: blank lines and comment-only lines are ignored — they parse to no
assignment, and inserting one anywhere in a source leaves the entire load
outcome unchanged (in particular they never raise). -/
theorem blank_comment_lines_ignored :
    (∀ l : String, ignorable l = true → parseLine l = .ok none) ∧
    (∀ (reg : Registry) (pre post : List String) (l : String),
      ignorable l = true →
      loadLines reg (pre ++ l :: post) = loadLines reg (pre ++ post)) := by
  refine ⟨parseLine_of_ignorable, ?_⟩
  intro reg pre post l h
  unfold loadLines
  rw [parseLines_insert_ignorable pre post l h]

/-- Witness for C6 at a concrete input: appending `# comment only` to a
one-line source changes nothing. -/
theorem blank_comment_lines_ignored_witness :
    loadLines godotRegistry ("lto=\"full\"" :: "# comment only" :: []) =
      loadLines godotRegistry ("lto=\"full\"" :: []) :=
  blank_comment_lines_ignored.2 godotRegistry ["lto=\"full\""] [] "# comment only" rfl

/-- C7: `to_invocation_args` returns one `--flag=value` string per registry
entry, in registry order (position `i` of the output always corresponds to
position `i` of the registry, whatever profile is rendered), with the flag
name taken from the registry's one-to-one mapping. -/
theorem args_in_registry_order (reg : Registry) (p : Profile) :
    (toInvocationArgs reg p).length = reg.length ∧
    ∀ (i : Nat) (h1 : i < reg.length) (h2 : i < (toInvocationArgs reg p).length),
      (toInvocationArgs reg p).get ⟨i, h2⟩ =
        "--" ++ (reg.get ⟨i, h1⟩).flag ++ "=" ++
          renderValue ((profileFind p (reg.get ⟨i, h1⟩).name).getD
            (reg.get ⟨i, h1⟩).declared_default) := by
  constructor
  · unfold toInvocationArgs
    exact List.length_map ..
  · intro i h1 h2
    simp [toInvocationArgs, List.get_eq_getElem, List.getElem_map]

/-- Witness for C7 at a concrete input: the first rendered argument of the
all-defaults profile is `--target=editor`, matching registry position 0. -/
theorem args_in_registry_order_witness :
    (toInvocationArgs godotRegistry godotDefaults).get ⟨0, by decide⟩ = "--target=editor" :=
  ((args_in_registry_order godotRegistry godotDefaults).2 0 (by decide) (by decide)).trans rfl

/-- Every coerced value in the output of `coercePairs` came from coercing
some raw string with the registry entry found for its key. -/
theorem coercePairs_val (reg : Registry) (ps : List (String × String))
    (vals : List (String × Value)) (hc : coercePairs reg ps = .ok vals)
    (k : String) (v : Value) (hmem : (k, v) ∈ vals) :
    ∃ spec raw, findSpec reg k = some spec ∧ coerceValue spec.type raw = .ok v := by
  induction ps generalizing vals with
  | nil =>
    unfold coercePairs at hc
    cases hc
    cases hmem
  | cons kv rest ih =>
    obtain ⟨k2, raw2⟩ := kv
    cases hf2 : findSpec reg k2 with
    | none =>
      simp only [coercePairs, hf2] at hc
      cases hc
    | some spec2 =>
      simp only [coercePairs, hf2] at hc
      cases hv2 : coerceValue spec2.type raw2 with
      | error e =>
        simp only [hv2] at hc
        cases hc
      | ok v2 =>
        cases hvs : coercePairs reg rest with
        | error e =>
          simp only [hv2, hvs] at hc
          cases hc
        | ok vs =>
          simp only [hv2, hvs] at hc
          injection hc with hc2
          subst hc2
          rcases List.mem_cons.mp hmem with heq | htail
          · injection heq with h1 h2
            subst h1; subst h2
            exact ⟨spec2, raw2, hf2, hv2⟩
          · exact ih vs hvs htail

/-- C8: round-trip — for every Profile produced by `load` under a
well-formed registry, re-parsing the rendered `--flag=value` invocation
arguments recovers the same Profile. -/
theorem roundtrip_invocation_args (reg : Registry) (src : String) (p : Profile)
    (hwf : WellFormed reg) (h : load reg src = .ok p) :
    parseInvocationArgs reg (toInvocationArgs reg p) = .ok p := by
  obtain ⟨pairs, vals, hp, hk, hc, rfl⟩ := loadLines_ok_inv reg (splitLines src) p h
  obtain ⟨hnames, hflags, hfeq, hdef⟩ := hwf
  have htc : ∀ s ∈ reg, typeCorrect s.type
      ((lookupLast vals s.name).getD s.declared_default) = true := by
    intro s hs
    cases hl : lookupLast vals s.name with
    | none => exact hdef s hs
    | some v =>
      have hmem : (s.name, v) ∈ vals := lookupLast_mem vals s.name v hl
      obtain ⟨spec, raw, hfs, hcv⟩ := coercePairs_val reg pairs vals hc s.name v hmem
      rw [findSpec_self reg s hnames hs] at hfs
      injection hfs with he
      subst he
      exact coerceValue_typeCorrect _ _ _ hcv
  have hargs : toInvocationArgs reg (buildProfile reg vals) =
      reg.map (fun s => "--" ++ s.flag ++ "=" ++
        renderValue ((lookupLast vals s.name).getD s.declared_default)) := by
    unfold toInvocationArgs
    apply List.map_congr_left
    intro s hs
    have hpf : profileFind (buildProfile reg vals) s.name =
        some ((lookupLast vals s.name).getD s.declared_default) :=
      profileFind_map reg (fun t => (lookupLast vals t.name).getD t.declared_default)
        s hnames hs
    show "--" ++ s.flag ++ "=" ++
        renderValue ((profileFind (buildProfile reg vals) s.name).getD s.declared_default) =
      "--" ++ s.flag ++ "=" ++
        renderValue ((lookupLast vals s.name).getD s.declared_default)
    rw [hpf]
    rfl
  rw [hargs]
  have hcore := parseInvocationArgs_render reg reg
    (fun s => (lookupLast vals s.name).getD s.declared_default)
    (fun s hs => findSpecByFlag_self reg s hflags hs)
    hfeq htc
  rw [hcore]
  rfl

/-- Witness for C8 at a concrete input: the all-defaults profile loaded
from the empty source round-trips through the invocation arguments. -/
theorem roundtrip_invocation_args_witness :
    parseInvocationArgs godotRegistry (toInvocationArgs godotRegistry godotDefaults) =
      .ok godotDefaults :=
  roundtrip_invocation_args godotRegistry "" godotDefaults
    ⟨by decide, by decide, by decide, by decide⟩ rfl

set_option maxRecDepth 1000000 in
/-- C9: every line of `src/custom_build.py` is either ignorable (blank or
comment-only) or a quoted assignment `identifier="value"` — including the
lines with trailing `#` comments, which parse as assignment plus comment —
so a conforming loader raises no `ParseError` on this file, and indeed
loads it successfully. -/
theorem custom_build_file_wellformed :
    customBuildLines.all (fun l => ignorable l || isQuotedAssignment l) = true ∧
    parseLine "optimize=\"size_extra\"  # Godot 4.5+ only, otherwise use \"size\"" =
      .ok (some ("optimize", "size_extra")) ∧
    parseLine "lto=\"full\"             # Full link-time optimization (slower build, smaller size)" =
      .ok (some ("lto", "full")) ∧
    ∃ p, load godotRegistry customBuildSource = .ok p :=
  ⟨by decide, rfl, rfl, ⟨_, rfl⟩⟩

set_option maxRecDepth 1000000 in
/-- C10 counterexample: the configuration file does not contain 24
assignment lines — parsing it yields exactly the 22 assignments of
`customBuildPairs`, so the claimed count of 24 is false. -/
theorem custom_build_not_24_assignments :
    parseLines customBuildLines = .ok customBuildPairs ∧
    customBuildPairs.length ≠ 24 :=
  ⟨rfl, by decide⟩

set_option maxRecDepth 1000000 in
/-- C10 (amended): the 22 assignment lines of `src/custom_build.py` have
pairwise distinct keys, so loading keeps each option name mapped to
exactly one value without any duplicate-key resolution rule. -/
theorem custom_build_keys_distinct :
    parseLines customBuildLines = .ok customBuildPairs ∧
    customBuildPairs.length = 22 ∧
    (customBuildPairs.map Prod.fst).Nodup :=
  ⟨rfl, rfl, by decide⟩

end ProfileLoader
